import Mathlib

/-!
Verification development for the CLAP instrument plugin tutorial
(johnnovak/clap-tutorial).

The development shallowly embeds the plugin's render-thread logic:

* the voice registry and its event handlers (MyPlugin::ProcessEvent in
  src/src/my_plugin.cpp and src/plugin.cpp),
* the per-block event/render interleaving loop and end-of-block voice
  cleanup (MyPlugin::Process),
* the control/render parameter synchronisation
  (MyPlugin::SyncMainParamsToAudio, MyPlugin::GetParamValue,
  MyPlugin::LoadState),
* the oscillator phase bookkeeping of MyPlugin::RenderAudio,
* the resample-and-carry-over buffer logic at the tail of
  MyPlugin::Process (identical to NukedSc55::ResampleAndPublishFrames in
  src/src/nuked_sc55.cpp).

Machine floats are embedded as rationals.  The two genuinely
transcendental float computations - the waveform shape function
(sinf/triangle of the scaled phase) and the per-key phase increment
(440*exp2f((key-57)/12)/RenderSampleRateHz) - are abstracted as function
parameters, since no claim depends on their numeric values, only on how
their results flow through the state.  The Speex rate converter is an
external library; following its documented contract (and the three-outcome
comment in the source) one call is modelled by the pair of counts it
reports: samples consumed and samples produced.
-/

namespace ClapTut

/-- NumParams from my_plugin.h: the plugin declares exactly one
parameter. -/
def NumParams : Nat := 1

/-- ParamVolume from my_plugin.h: index of the single volume parameter. -/
def ParamVolume : Nat := 0

/-- Voice from my_plugin.h: one sounding note.  Float fields (phase,
param_offsets) are embedded as rationals. -/
structure Voice where
  held : Bool
  note_id : Int
  channel : Int
  key : Int
  phase : ℚ
  param_offsets : List ℚ
deriving Repr, DecidableEq

/-- Key/note_id/channel triple carried by note and modulation events;
-1 in a field is the CLAP wildcard. -/
structure NoteFields where
  key : Int
  note_id : Int
  channel : Int
deriving Repr, DecidableEq

/-- Wildcard matching rule shared by the note-on/off/choke and
param-mod handlers of MyPlugin::ProcessEvent: a voice matches when every
field of the event is either -1 or equal to the voice's field. -/
def matchesVoice (t : NoteFields) (v : Voice) : Bool :=
  (t.key == -1 || v.key == t.key) &&
  (t.note_id == -1 || v.note_id == t.note_id) &&
  (t.channel == -1 || v.channel == t.channel)

/-- Release marking for CLAP_EVENT_NOTE_ON / CLAP_EVENT_NOTE_OFF: the
voice loop of MyPlugin::ProcessEvent sets held = false on every matching
voice (it erases nothing for these event types, so the index loop is a
plain map). -/
def markReleased (t : NoteFields) (l : List Voice) : List Voice :=
  l.map (fun v => if matchesVoice t v then { v with held := false } else v)

/-- Choke handling for CLAP_EVENT_NOTE_CHOKE: the index loop of
MyPlugin::ProcessEvent erases every matching voice and compensates the
loop increment with --i, so the same index is re-examined after an
erase. -/
def chokeStep (t : NoteFields) (l : List Voice) (i : Nat) : List Voice :=
  if h : i < l.length then
    if matchesVoice t l[i] then
      chokeStep t (l.eraseIdx i) i
    else
      chokeStep t l (i + 1)
  else
    l
termination_by l.length - i
decreasing_by
  · have := List.length_eraseIdx_add_one h
    omega
  · omega

/-- Choke entry point: the loop starts at index 0. -/
def chokeVoices (t : NoteFields) (l : List Voice) : List Voice :=
  chokeStep t l 0

/-- Parameter-modulation handling for CLAP_EVENT_PARAM_MOD: the loop of
MyPlugin::ProcessEvent scans forward, writes param_offsets[param_id] of
the first matching voice and breaks. -/
def modLoop (t : NoteFields) (pid : Nat) (amount : ℚ) :
    List Voice → List Voice
  | [] => []
  | v :: vs =>
    if matchesVoice t v then
      { v with param_offsets := v.param_offsets.set pid amount } :: vs
    else
      v :: modLoop t pid amount vs

/-- Events the plugin emits into the host-facing output sink. -/
inductive OutEvent where
  | noteEnd (key : Int) (note_id : Int) (channel : Int)
  | paramEcho (pid : Nat) (value : ℚ)
deriving Repr, DecidableEq

/-- Wildcard rule of matchesVoice applied to an emitted event: only
note-end events carry a voice identity. -/
def matchesEnd (t : NoteFields) : OutEvent → Bool
  | .noteEnd k n c =>
    (t.key == -1 || k == t.key) &&
    (t.note_id == -1 || n == t.note_id) &&
    (t.channel == -1 || c == t.channel)
  | .paramEcho _ _ => false

/-- End-of-block voice cleanup of MyPlugin::Process ("Clear voices"): an
index loop that, at each visited index, pushes a CLAP_EVENT_NOTE_END
event and erases the voice when it is not held.  Note that after an
erase the loop increment ++i still runs (there is no --i here, unlike
the choke loop), so the element shifted into the erased slot is not
re-examined. -/
def clearStep (l : List Voice) (i : Nat) (acc : List OutEvent) :
    List Voice × List OutEvent :=
  if h : i < l.length then
    if l[i].held then
      clearStep l (i + 1) acc
    else
      clearStep (l.eraseIdx i) (i + 1)
        (acc ++ [.noteEnd l[i].key l[i].note_id l[i].channel])
  else
    (l, acc)
termination_by l.length - i
decreasing_by
  · omega
  · have := List.length_eraseIdx_add_one h
    omega

/-- Cleanup entry point: the loop starts at index 0 with no events
pushed yet. -/
def clearVoices (l : List Voice) : List Voice × List OutEvent :=
  clearStep l 0 []

/-- Input events delivered by the host, discriminated as in
MyPlugin::ProcessEvent.  The inert constructor stands for the
recognised-but-unimplemented kinds (note expression, transport, MIDI,
sysex, MIDI2), which the switch accepts and ignores. -/
inductive ClapEvent where
  | noteOn (time : Nat) (key : Int) (note_id : Int) (channel : Int)
  | noteOff (time : Nat) (key : Int) (note_id : Int) (channel : Int)
  | noteChoke (time : Nat) (key : Int) (note_id : Int) (channel : Int)
  | paramValue (time : Nat) (pid : Nat) (value : ℚ)
  | paramMod (time : Nat) (fields : NoteFields) (pid : Nat) (amount : ℚ)
  | inert (time : Nat)
deriving Repr, DecidableEq

/-- Timestamp of an event inside its block (header.time). -/
def ClapEvent.time : ClapEvent → Nat
  | .noteOn t _ _ _ => t
  | .noteOff t _ _ _ => t
  | .noteChoke t _ _ _ => t
  | .paramValue t _ _ => t
  | .paramMod t _ _ _ => t
  | .inert t => t

/-- Plugin state owned by the render and control contexts: the voice
vector, the two parameter shadow arrays with their changed flags, and
the two render-buffer channels (my_plugin.h data members). -/
structure PluginState where
  voices : List Voice
  audio_params : List ℚ
  audio_params_changed : List Bool
  main_params : List ℚ
  main_params_changed : List Bool
  render_buf0 : List ℚ
  render_buf1 : List ℚ
deriving Repr, DecidableEq

/-- ProcessEvent from my_plugin.cpp: dispatch on the event type.  A
note-on first runs the release-marking loop over the existing voices
(the shared loop treats a note-on like a release for matching voices)
and then appends a fresh voice with held = true and phase 0; param-value
events write the render-side array and flag; param-mod events run the
first-match modulation loop. -/
def processEvent (e : ClapEvent) (st : PluginState) : PluginState :=
  match e with
  | .noteOn _ k n c =>
    { st with
      voices :=
        markReleased ⟨k, n, c⟩ st.voices ++
          [{ held := true, note_id := n, channel := c, key := k,
             phase := 0, param_offsets := List.replicate NumParams 0 }] }
  | .noteOff _ k n c =>
    { st with voices := markReleased ⟨k, n, c⟩ st.voices }
  | .noteChoke _ k n c =>
    { st with voices := chokeVoices ⟨k, n, c⟩ st.voices }
  | .paramValue _ pid v =>
    { st with
      audio_params := st.audio_params.set pid v
      audio_params_changed := st.audio_params_changed.set pid true }
  | .paramMod _ t pid amount =>
    { st with voices := modLoop t pid amount st.voices }
  | .inert _ => st

/-- Clamp as used for the per-voice volume, std::clamp(x, lo, hi). -/
def clampQ (x lo hi : ℚ) : ℚ := max lo (min x hi)

/-- Phase update of MyPlugin::RenderAudio for one held voice and one
frame: add the per-key increment, then wrap by subtracting the floor
(voice->phase += incr; voice->phase -= floorf(voice->phase)). -/
def advancePhase (phase incr : ℚ) : ℚ :=
  let p := phase + incr
  p - (Rat.floor p : ℚ)

/-- Per-voice work of one RenderAudio frame.  The parameter osc stands
for the waveform shape evaluated at the scaled phase (sinf or triangle
of phase*2*pi, a float transcendental); incr key stands for the float
value of 440*exp2f((key-57)/12)/RenderSampleRateHz.  A voice that is not
held is skipped (continue) and contributes 0. -/
def renderVoiceFrame (osc : ℚ → ℚ) (incr : Int → ℚ) (volumeParam : ℚ)
    (v : Voice) : Voice × ℚ :=
  if v.held then
    let volume := clampQ (volumeParam + v.param_offsets.getD ParamVolume 0) 0 1
    ({ v with phase := advancePhase v.phase (incr v.key) },
     osc v.phase * (1 / 5) * volume)
  else
    (v, 0)

/-- One frame of MyPlugin::RenderAudio: sum the contributions of the
held voices (advancing their phases in place) and report the updated
voice vector together with the mono sample. -/
def renderFrame (osc : ℚ → ℚ) (incr : Int → ℚ) (volumeParam : ℚ) :
    List Voice → List Voice × ℚ
  | [] => ([], 0)
  | v :: vs =>
    ((renderVoiceFrame osc incr volumeParam v).1 ::
       (renderFrame osc incr volumeParam vs).1,
     (renderVoiceFrame osc incr volumeParam v).2 +
       (renderFrame osc incr volumeParam vs).2)

/-- RenderAudio from my_plugin.cpp: repeat renderFrame num_frames times,
appending the mono sample to both render-buffer channels. -/
def renderAudio (osc : ℚ → ℚ) (incr : Int → ℚ) (num_frames : Nat)
    (st : PluginState) : PluginState :=
  match num_frames with
  | 0 => st
  | n + 1 =>
    renderAudio osc incr n
      { st with
        voices :=
          (renderFrame osc incr (st.audio_params.getD ParamVolume 0) st.voices).1
        render_buf0 := st.render_buf0 ++
          [(renderFrame osc incr (st.audio_params.getD ParamVolume 0) st.voices).2]
        render_buf1 := st.render_buf1 ++
          [(renderFrame osc incr (st.audio_params.getD ParamVolume 0) st.voices).2] }

/-- SyncMainParamsToAudio from my_plugin.cpp: walk the parameter arrays
in index order; at every index whose control-side changed flag is set,
copy the control-side value to the render side, clear the flag, and push
one CLAP_EVENT_PARAM_VALUE echo carrying the adopted value.  The index
argument i tracks the param_id of the emitted event. -/
def syncLoop : List ℚ → List Bool → List ℚ → Nat →
    List ℚ × List Bool × List ℚ × List OutEvent
  | m :: ms, c :: cs, a :: as_, i =>
    let w := syncLoop ms cs as_ (i + 1)
    if c then
      (m :: w.1, false :: w.2.1, m :: w.2.2.1, .paramEcho i m :: w.2.2.2)
    else
      (m :: w.1, c :: w.2.1, a :: w.2.2.1, w.2.2.2)
  | ms, cs, as_, _ => (ms, cs, as_, [])

/-- Synchronisation entry point on the plugin state: returns the updated
state and the echo events pushed to the output sink. -/
def syncMainParamsToAudio (st : PluginState) : PluginState × List OutEvent :=
  let w := syncLoop st.main_params st.main_params_changed st.audio_params 0
  ({ st with
      main_params := w.1
      main_params_changed := w.2.1
      audio_params := w.2.2.1 },
   w.2.2.2)

/-- Trace of the block loop of MyPlugin::Process: the interleaving of
event applications and rendered sub-spans, in execution order.  A render
item records the sub-span [start, stop) of block frames handed to
RenderAudio (the source scales its length by the resample ratio before
calling RenderAudio; the sub-span itself is in block coordinates). -/
inductive TraceItem where
  | render (start : Nat) (stop : Nat)
  | apply (e : ClapEvent)
deriving Repr, DecidableEq

/-- Inner event-consuming while loop of MyPlugin::Process: while events
remain and next_event_frame equals the current frame, fetch the next
event; if its timestamp is not the current frame, record it as the next
event frame and break; otherwise apply it; after the last event set
next_event_frame to the block length and break.  Returns the new event
index, next event frame, state, and applied events in order. -/
def innerLoop (events : List ClapEvent) (num_frames curr : Nat)
    (idx next : Nat) (st : PluginState) :
    Nat × Nat × PluginState × List TraceItem :=
  if h : idx < events.length ∧ next = curr then
    let e := events.get ⟨idx, h.1⟩
    if e.time ≠ curr then
      (idx, e.time, st, [])
    else
      let st' := processEvent e st
      if idx + 1 = events.length then
        (idx + 1, num_frames, st', [.apply e])
      else
        let w := innerLoop events num_frames curr (idx + 1) next st'
        (w.1, w.2.1, w.2.2.1, .apply e :: w.2.2.2)
  else
    (idx, next, st, [])
termination_by events.length - idx

/-- Outer frame loop of MyPlugin::Process, with explicit fuel.  Each
iteration runs the inner event loop, renders the sub-span from the
current frame to the next event frame, and advances the current frame.
The fuel given by processCall is sufficient for every well-formed
(sorted, in-block) event list; its exhaustion matches the source looping
without progress on malformed input. -/
def outerLoop (osc : ℚ → ℚ) (incr : Int → ℚ) (events : List ClapEvent)
    (num_frames : Nat) :
    Nat → Nat → Nat → Nat → PluginState → PluginState × List TraceItem
  | 0, _, _, _, st => (st, [])
  | fuel + 1, curr, idx, next, st =>
    if curr < num_frames then
      let w := innerLoop events num_frames curr idx next st
      let st2 := renderAudio osc incr (w.2.1 - curr) w.2.2.1
      let w2 := outerLoop osc incr events num_frames fuel w.2.1 w.1 w.2.1 st2
      (w2.1, w.2.2.2 ++ [.render curr w.2.1] ++ w2.2)
    else
      (st, [])

/-- Process from my_plugin.cpp, restricted to the state it transforms
and the events it emits: synchronise the control-side parameters first
(before any rendering), run the block loop, then run the end-of-block
voice cleanup.  Returns the final state, the output-sink events (echo
events from the sync followed by note-end events from the cleanup), and
the block-loop trace.  next_event_frame starts at the block length when
the event list is empty and at 0 otherwise. -/
def processCall (osc : ℚ → ℚ) (incr : Int → ℚ) (st : PluginState)
    (num_frames : Nat) (events : List ClapEvent) :
    PluginState × List OutEvent × List TraceItem :=
  let next0 := if events.length = 0 then num_frames else 0
  let w := outerLoop osc incr events num_frames (num_frames + events.length + 1)
    0 0 next0 (syncMainParamsToAudio st).1
  ({ w.1 with voices := (clearVoices w.1.voices).1 },
   (syncMainParamsToAudio st).2 ++ (clearVoices w.1.voices).2,
   w.2)

/-- GetParamValue from my_plugin.cpp: out-of-range indices yield no
value; otherwise a pending control-side change takes precedence over the
render-side value.  The source method only reads the arrays (under the
sync lock), so it is embedded as a pure function of the state. -/
def getParamValue (st : PluginState) (id : Nat) : Option ℚ :=
  if id ≥ NumParams then
    none
  else
    some (if st.main_params_changed.getD id false then
            st.main_params.getD id 0
          else
            st.audio_params.getD id 0)

/-- LoadState from my_plugin.cpp.  The stream is modelled by the number
of bytes it can deliver and the parameter values encoded in them; a
single read call returns min(available, requested) bytes.  Success
requires exactly sizeof(float)*NumParams = 4*NumParams bytes.  The
changed-flag marking loop runs unconditionally, after the read,
regardless of success.  (On a short read the source leaves main_params
partially overwritten at byte granularity; the value content on failure
is modelled as the values of the whole floats that were read, which no
verified claim consults.) -/
def loadState (streamBytes : Nat) (streamVals : List ℚ)
    (st : PluginState) : PluginState × Bool :=
  let bytes_to_read := 4 * NumParams
  let bytes_read := min streamBytes bytes_to_read
  let success := bytes_read == bytes_to_read
  let floats_read := bytes_read / 4
  let main' := (streamVals.take floats_read) ++ st.main_params.drop floats_read
  let changed' := (List.range NumParams).foldl
    (fun l i => l.set i true) st.main_params_changed
  ({ st with main_params := main', main_params_changed := changed' }, success)

/-- Counts reported by one speex_resampler_process_float call: the
number of input samples consumed and output samples produced. -/
structure ConvResult where
  consumed : Nat
  produced : Nat
deriving Repr, DecidableEq

/-- Contract of the streaming converter per the Speex documentation and
the three-outcome comment in MyPlugin::Process: a call never consumes
more input than available nor produces more output than requested, and
it stops only when the input is exhausted or the output is filled. -/
def ConvOk (availIn reqOut : Nat) (r : ConvResult) : Prop :=
  r.consumed ≤ availIn ∧ r.produced ≤ reqOut ∧
    (r.consumed = availIn ∨ r.produced = reqOut)

instance (availIn reqOut : Nat) (r : ConvResult) :
    Decidable (ConvOk availIn reqOut r) := by
  unfold ConvOk
  infer_instance

/-- Tail of MyPlugin::Process (identical to
NukedSc55::ResampleAndPublishFrames): resample the two render-buffer
channels into the host output, re-render and re-feed on underrun, then
retain or clear the buffers.  Control flow in the source is driven by
the in_len/out_len variables left by the channel-1 converter calls:
pass1 are the counts of the first channel-1 call, pass2 those of the
channel-1 call inside the underrun branch.  reRender models clearing
the buffers and calling RenderAudio(ceil(remaining*resample_ratio)): it
maps the remaining output frame count to the freshly rendered buffer
contents (the same frames land in both channels).  The final leftover
check compares in_len against input_len, the length captured from
render_buf[0] before the underrun branch. -/
def resamplePublish (buf0 buf1 : List ℚ) (output_len : Nat)
    (pass1 : ConvResult) (reRender : Nat → List ℚ) (pass2 : ConvResult) :
    List ℚ × List ℚ :=
  let input_len := buf0.length
  if pass1.produced < output_len then
    let remaining := output_len - pass1.produced
    let newBuf := reRender remaining
    let in_len := pass2.consumed
    if in_len < input_len then
      (newBuf.drop in_len, newBuf.drop in_len)
    else
      ([], [])
  else
    let in_len := pass1.consumed
    if in_len < input_len then
      (buf0.drop in_len, buf1.drop in_len)
    else
      ([], [])

/-- Pid carried by an output event, when it is a parameter echo. -/
def echoPid : OutEvent → Option Nat
  | .paramEcho p _ => some p
  | .noteEnd _ _ _ => none

/-- Exponent of the pitch mapping in MyPlugin::RenderAudio: the
frequency is 440 * 2 ^ freqExponent key (the float expression
440.0f * exp2f((voice->key - 57.0f) / 12.0f)). -/
def freqExponent (key : Int) : ℚ := ((key : ℚ) - 57) / 12

/-- Distinctness guard used to state the voice-registry invariant: two
voices may not both be held with identical (key, note_id, channel). -/
def heldDistinct (v w : Voice) : Bool :=
  !(v.held && w.held && v.key == w.key && v.note_id == w.note_id &&
    v.channel == w.channel)

/-- Invariant: no two voices in the registry are simultaneously held
with the same exact (key, note_id, channel) triple. -/
def UniqueHeld (l : List Voice) : Prop :=
  l.Pairwise (fun v w => heldDistinct v w = true)

/-- Test fixture: a not-held voice (key 60). -/
def voxA : Voice :=
  { held := false, note_id := 1, channel := 0, key := 60, phase := 0,
    param_offsets := [0] }

/-- Test fixture: a second not-held voice (key 61). -/
def voxB : Voice :=
  { held := false, note_id := 2, channel := 0, key := 61, phase := 0,
    param_offsets := [0] }

/-- Test fixture: a plugin state with no voices and one unchanged
parameter. -/
def stC3 : PluginState :=
  { voices := [], audio_params := [0], audio_params_changed := [false],
    main_params := [1], main_params_changed := [false],
    render_buf0 := [], render_buf1 := [] }

/-- Test fixture: a plugin state whose single parameter is marked
control-changed with pending value 2. -/
def stC4 : PluginState :=
  { voices := [], audio_params := [0], audio_params_changed := [false],
    main_params := [2], main_params_changed := [true],
    render_buf0 := [], render_buf1 := [] }

/-- Test fixture: a held voice with out-of-range phase 3/2. -/
def voiceW7 : Voice :=
  { held := true, note_id := 7, channel := 0, key := 57, phase := 3/2,
    param_offsets := [0] }

/-- Test fixture: voiceW7 after one render step with zero increment. -/
def voiceW7res : Voice :=
  { held := true, note_id := 7, channel := 0, key := 57, phase := 1/2,
    param_offsets := [0] }

/-- Test fixture: a plugin state holding voiceW7. -/
def stW7 : PluginState :=
  { voices := [voiceW7], audio_params := [1/2], audio_params_changed := [false],
    main_params := [1/2], main_params_changed := [false],
    render_buf0 := [], render_buf1 := [] }

section Lemmas

lemma advancePhase_eq_fract (p i : ℚ) : advancePhase p i = Int.fract (p + i) := rfl

lemma advancePhase_nonneg (p i : ℚ) : 0 ≤ advancePhase p i := by
  rw [advancePhase_eq_fract]
  exact Int.fract_nonneg _

lemma advancePhase_lt_one (p i : ℚ) : advancePhase p i < 1 := by
  rw [advancePhase_eq_fract]
  exact Int.fract_lt_one _

lemma chokeStep_eq (t : NoteFields) (l : List Voice) (i : Nat) :
    chokeStep t l i =
      l.take i ++ (l.drop i).filter (fun v => !matchesVoice t v) := by
  induction l, i using chokeStep.induct t with
  | case1 l i h hm ih =>
    rw [chokeStep]
    simp only [dif_pos h, if_pos hm]
    rw [ih, List.eraseIdx_eq_take_drop_succ]
    rw [List.take_left' (by simp [List.length_take]; omega),
        List.drop_left' (by simp [List.length_take]; omega)]
    rw [List.drop_eq_getElem_cons h, List.filter_cons]
    simp [hm]
  | case2 l i h hm ih =>
    rw [chokeStep]
    simp only [dif_pos h, if_neg hm]
    rw [ih, List.drop_eq_getElem_cons h, List.filter_cons]
    simp only [Bool.not_eq_true] at hm
    simp only [hm, Bool.not_false, if_pos]
    rw [← List.take_concat_get' l i h, List.append_assoc, List.singleton_append]
  | case3 l i h =>
    rw [chokeStep]
    simp only [dif_neg h]
    rw [List.take_of_length_le (by omega), List.drop_eq_nil_of_le (by omega)]
    simp

lemma chokeVoices_eq_filter (t : NoteFields) (l : List Voice) :
    chokeVoices t l = l.filter (fun v => !matchesVoice t v) := by
  rw [chokeVoices, chokeStep_eq]
  rfl

lemma clearStep_events (l : List Voice) (i : Nat) (acc : List OutEvent) :
    ∀ e ∈ (clearStep l i acc).2,
      e ∈ acc ∨ ∃ v, v ∈ l ∧ v.held = false ∧
        e = OutEvent.noteEnd v.key v.note_id v.channel := by
  induction l, i, acc using clearStep.induct with
  | case1 l i acc h hheld ih =>
    rw [clearStep]
    simp only [dif_pos h, if_pos hheld]
    exact ih
  | case2 l i acc h hheld ih =>
    rw [clearStep]
    simp only [dif_pos h, if_neg hheld]
    intro e he
    rcases ih e he with hacc | ⟨v, hv, hvh, rfl⟩
    · rcases List.mem_append.1 hacc with h1 | h2
      · exact Or.inl h1
      · refine Or.inr ⟨l[i], List.getElem_mem h, ?_, ?_⟩
        · exact Bool.not_eq_true _ ▸ (by simpa using hheld)
        · simpa using h2
    · exact Or.inr ⟨v, List.mem_of_mem_eraseIdx hv, hvh, rfl⟩
  | case3 l i acc h =>
    rw [clearStep]
    simp only [dif_neg h]
    intro e he
    exact Or.inl he

lemma clearStep_voices_sublist (l : List Voice) (i : Nat) (acc : List OutEvent) :
    List.Sublist (clearStep l i acc).1 l := by
  induction l, i, acc using clearStep.induct with
  | case1 l i acc h hheld ih =>
    rw [clearStep]
    simp only [dif_pos h, if_pos hheld]
    exact ih
  | case2 l i acc h hheld ih =>
    rw [clearStep]
    simp only [dif_pos h, if_neg hheld]
    exact ih.trans (List.eraseIdx_sublist l i)
  | case3 l i acc h =>
    rw [clearStep]
    simp only [dif_neg h]
    exact List.Sublist.refl l

lemma clearVoices_events_shape (l : List Voice) :
    ∀ e ∈ (clearVoices l).2, ∃ v, v ∈ l ∧ v.held = false ∧
      e = OutEvent.noteEnd v.key v.note_id v.channel := by
  intro e he
  rcases clearStep_events l 0 [] e he with h | h
  · simp at h
  · exact h

lemma syncLoop_fst :
    ∀ (ms : List ℚ) (cs : List Bool) (as_ : List ℚ) (i : Nat),
      (syncLoop ms cs as_ i).1 = ms := by
  intro ms
  induction ms with
  | nil => intro cs as_ i; cases cs <;> cases as_ <;> rfl
  | cons m ms ih =>
    intro cs as_ i
    cases cs with
    | nil => rfl
    | cons c cs =>
      cases as_ with
      | nil => rfl
      | cons a as_ => cases c <;> simp [syncLoop, ih]

lemma syncLoop_evs_pid_ge :
    ∀ (ms : List ℚ) (cs : List Bool) (as_ : List ℚ) (i : Nat),
      ∀ e ∈ (syncLoop ms cs as_ i).2.2.2,
        ∃ p v, e = OutEvent.paramEcho p v ∧ i ≤ p := by
  intro ms
  induction ms with
  | nil => intro cs as_ i e he; cases cs <;> cases as_ <;> simp [syncLoop] at he
  | cons m ms ih =>
    intro cs as_ i e he
    cases cs with
    | nil => simp [syncLoop] at he
    | cons c cs =>
      cases as_ with
      | nil => simp [syncLoop] at he
      | cons a as_ =>
        cases c with
        | true =>
          simp only [syncLoop, if_pos] at he
          rcases List.mem_cons.1 he with rfl | htail
          · exact ⟨i, m, rfl, le_refl i⟩
          · obtain ⟨p, v, rfl, hp⟩ := ih cs as_ (i + 1) e htail
            exact ⟨p, v, rfl, by omega⟩
        | false =>
          simp only [syncLoop, if_neg] at he
          obtain ⟨p, v, rfl, hp⟩ := ih cs as_ (i + 1) e he
          exact ⟨p, v, rfl, by omega⟩

lemma syncLoop_spec_at :
    ∀ (ms : List ℚ) (cs : List Bool) (as_ : List ℚ) (i j : Nat),
      j < ms.length → cs.length = ms.length → as_.length = ms.length →
      ((cs.getD j false = true →
          (syncLoop ms cs as_ i).2.2.1.getD j 0 = ms.getD j 0 ∧
          (syncLoop ms cs as_ i).2.1.getD j false = false ∧
          (syncLoop ms cs as_ i).2.2.2.filter
              (fun e => echoPid e == some (i + j)) =
            [OutEvent.paramEcho (i + j) (ms.getD j 0)]) ∧
       (cs.getD j false = false →
          (syncLoop ms cs as_ i).2.2.1.getD j 0 = as_.getD j 0 ∧
          (syncLoop ms cs as_ i).2.1.getD j false = false ∧
          (syncLoop ms cs as_ i).2.2.2.filter
              (fun e => echoPid e == some (i + j)) = [])) := by
  intro ms
  induction ms with
  | nil => intro cs as_ i j hj; simp at hj
  | cons m ms ih =>
    intro cs as_ i j hj hlc hla
    cases cs with
    | nil => simp at hlc
    | cons c cs =>
      cases as_ with
      | nil => simp at hla
      | cons a as_ =>
        have hlc' : cs.length = ms.length := by simpa using hlc
        have hla' : as_.length = ms.length := by simpa using hla
        cases j with
        | zero =>
          cases c with
          | true =>
            constructor
            · intro _
              refine ⟨by simp [syncLoop], by simp [syncLoop], ?_⟩
              simp only [syncLoop, if_pos, Nat.add_zero, List.getD_cons_zero]
              rw [List.filter_cons_of_pos (by simp [echoPid])]
              have htail : (syncLoop ms cs as_ (i + 1)).2.2.2.filter
                  (fun e => echoPid e == some i) = [] := by
                rw [List.filter_eq_nil_iff]
                intro e he
                obtain ⟨p, v, rfl, hp⟩ := syncLoop_evs_pid_ge ms cs as_ (i + 1) e he
                simp [echoPid]
                omega
              rw [htail]
            · intro hc; simp at hc
          | false =>
            constructor
            · intro hc; simp at hc
            · intro _
              refine ⟨by simp [syncLoop], by simp [syncLoop], ?_⟩
              simp only [syncLoop, if_neg, Nat.add_zero]
              rw [List.filter_eq_nil_iff]
              intro e he
              obtain ⟨p, v, rfl, hp⟩ := syncLoop_evs_pid_ge ms cs as_ (i + 1) e he
              simp [echoPid]
              omega
        | succ j =>
          have hj' : j < ms.length := by simpa using hj
          have hstep : i + (j + 1) = (i + 1) + j := by omega
          cases c with
          | true =>
            constructor
            · intro hc
              simp only [List.getD_cons_succ] at hc ⊢
              rw [hstep]
              refine ⟨(ih cs as_ (i + 1) j hj' hlc' hla').1 hc |>.1, ?_, ?_⟩
              · simp only [syncLoop, if_pos, List.getD_cons_succ]
                exact ((ih cs as_ (i + 1) j hj' hlc' hla').1 hc).2.1
              · simp only [syncLoop, if_pos]
                rw [List.filter_cons_of_neg (by simp [echoPid]; omega)]
                exact ((ih cs as_ (i + 1) j hj' hlc' hla').1 hc).2.2
            · intro hc
              simp only [List.getD_cons_succ] at hc ⊢
              rw [hstep]
              refine ⟨((ih cs as_ (i + 1) j hj' hlc' hla').2 hc).1, ?_, ?_⟩
              · simp only [syncLoop, if_pos, List.getD_cons_succ]
                exact ((ih cs as_ (i + 1) j hj' hlc' hla').2 hc).2.1
              · simp only [syncLoop, if_pos]
                rw [List.filter_cons_of_neg (by simp [echoPid]; omega)]
                exact ((ih cs as_ (i + 1) j hj' hlc' hla').2 hc).2.2
          | false =>
            constructor
            · intro hc
              simp only [List.getD_cons_succ] at hc ⊢
              rw [hstep]
              refine ⟨((ih cs as_ (i + 1) j hj' hlc' hla').1 hc).1, ?_, ?_⟩
              · simp only [syncLoop, if_neg, List.getD_cons_succ]
                exact ((ih cs as_ (i + 1) j hj' hlc' hla').1 hc).2.1
              · simp only [syncLoop, if_neg]
                exact ((ih cs as_ (i + 1) j hj' hlc' hla').1 hc).2.2
            · intro hc
              simp only [List.getD_cons_succ] at hc ⊢
              rw [hstep]
              refine ⟨((ih cs as_ (i + 1) j hj' hlc' hla').2 hc).1, ?_, ?_⟩
              · simp only [syncLoop, if_neg, List.getD_cons_succ]
                exact ((ih cs as_ (i + 1) j hj' hlc' hla').2 hc).2.1
              · simp only [syncLoop, if_neg]
                exact ((ih cs as_ (i + 1) j hj' hlc' hla').2 hc).2.2

lemma processEvent_audio_params (e : ClapEvent) (st : PluginState)
    (h : ∀ t pid v, e ≠ ClapEvent.paramValue t pid v) :
    (processEvent e st).audio_params = st.audio_params := by
  cases e with
  | paramValue t pid v => exact absurd rfl (h t pid v)
  | noteOn _ _ _ _ => rfl
  | noteOff _ _ _ _ => rfl
  | noteChoke _ _ _ _ => rfl
  | paramMod _ _ _ _ => rfl
  | inert _ => rfl

lemma renderAudio_audio_params (osc : ℚ → ℚ) (incr : Int → ℚ) :
    ∀ (n : Nat) (st : PluginState),
      (renderAudio osc incr n st).audio_params = st.audio_params := by
  intro n
  induction n with
  | zero => intro st; rfl
  | succ n ih =>
    intro st
    rw [renderAudio]
    exact ih _

lemma innerLoop_audio_params (events : List ClapEvent) (nf curr : Nat)
    (hev : ∀ e ∈ events, ∀ t pid v, e ≠ ClapEvent.paramValue t pid v) :
    ∀ (idx next : Nat) (st : PluginState),
      (innerLoop events nf curr idx next st).2.2.1.audio_params =
        st.audio_params := by
  intro idx next st
  induction idx, next, st using innerLoop.induct events nf curr with
  | case1 idx next st h e het =>
    rw [innerLoop]
    rw [dif_pos h, if_pos het]
  | case2 idx next st h e het hlast =>
    rw [innerLoop]
    rw [dif_pos h, if_neg het, if_pos hlast]
    exact processEvent_audio_params _ st (hev _ (events.get_mem _ _))
  | case3 idx next st h e het st' hlast ih =>
    rw [innerLoop]
    rw [dif_pos h, if_neg het, if_neg hlast]
    exact ih.trans (processEvent_audio_params _ st (hev _ (events.get_mem _ _)))
  | case4 idx next st h =>
    rw [innerLoop]
    rw [dif_neg h]

lemma outerLoop_audio_params (osc : ℚ → ℚ) (incr : Int → ℚ)
    (events : List ClapEvent) (nf : Nat)
    (hev : ∀ e ∈ events, ∀ t pid v, e ≠ ClapEvent.paramValue t pid v) :
    ∀ (fuel curr idx next : Nat) (st : PluginState),
      (outerLoop osc incr events nf fuel curr idx next st).1.audio_params =
        st.audio_params := by
  intro fuel
  induction fuel with
  | zero => intro curr idx next st; rfl
  | succ fuel ih =>
    intro curr idx next st
    rw [outerLoop]
    by_cases hc : curr < nf
    · rw [if_pos hc]
      exact (ih _ _ _ _).trans
        ((renderAudio_audio_params osc incr _ _).trans
          (innerLoop_audio_params events nf curr hev idx next st))
    · rw [if_neg hc]

lemma innerLoop_stop (events : List ClapEvent) (nf curr idx next : Nat)
    (st : PluginState) (h : ¬(idx < events.length ∧ next = curr)) :
    innerLoop events nf curr idx next st = (idx, next, st, []) := by
  rw [innerLoop, dif_neg h]

lemma outerLoop_stop (osc : ℚ → ℚ) (incr : Int → ℚ)
    (events : List ClapEvent) (nf : Nat) (fuel curr idx next : Nat)
    (st : PluginState) (h : ¬ curr < nf) :
    outerLoop osc incr events nf fuel curr idx next st = (st, []) := by
  cases fuel with
  | zero => rfl
  | succ fuel => rw [outerLoop, if_neg h]

lemma renderFrame_fst (osc : ℚ → ℚ) (incr : Int → ℚ) (vol : ℚ)
    (l : List Voice) :
    (renderFrame osc incr vol l).1 =
      l.map (fun v => (renderVoiceFrame osc incr vol v).1) := by
  induction l with
  | nil => rfl
  | cons v vs ih => simp [renderFrame, ih]

lemma renderVoiceFrame_held_phase (osc : ℚ → ℚ) (incr : Int → ℚ) (vol : ℚ)
    (v : Voice) :
    ((renderVoiceFrame osc incr vol v).1).held = true →
      0 ≤ (renderVoiceFrame osc incr vol v).1.phase ∧
        (renderVoiceFrame osc incr vol v).1.phase < 1 := by
  by_cases hv : v.held = true
  · intro _
    simp [renderVoiceFrame, hv]
    exact ⟨advancePhase_nonneg _ _, advancePhase_lt_one _ _⟩
  · simp [renderVoiceFrame, hv]

lemma renderAudio_held_phase (osc : ℚ → ℚ) (incr : Int → ℚ) :
    ∀ (n : Nat) (st : PluginState),
      ∀ v ∈ (renderAudio osc incr (n + 1) st).voices, v.held = true →
        0 ≤ v.phase ∧ v.phase < 1 := by
  intro n
  induction n with
  | zero =>
    intro st v hv hh
    simp only [renderAudio, renderFrame_fst, List.mem_map] at hv
    obtain ⟨u, _, rfl⟩ := hv
    exact renderVoiceFrame_held_phase osc incr _ u hh
  | succ m ih =>
    intro st v hv hh
    rw [renderAudio] at hv
    exact ih _ v hv hh

lemma heldDistinct_iff (v w : Voice) :
    heldDistinct v w = true ↔
      (v.held = true → w.held = true →
        ¬(v.key = w.key ∧ v.note_id = w.note_id ∧ v.channel = w.channel)) := by
  cases hv : v.held <;> cases hw : w.held <;> simp [heldDistinct, hv, hw]
  tauto

lemma matchesVoice_of_eq_fields (t : NoteFields) (v : Voice)
    (hk : v.key = t.key) (hn : v.note_id = t.note_id)
    (hc : v.channel = t.channel) : matchesVoice t v = true := by
  simp [matchesVoice, hk, hn, hc]

lemma markReleased_unique (t : NoteFields) (l : List Voice)
    (h : UniqueHeld l) : UniqueHeld (markReleased t l) := by
  refine List.Pairwise.map _ ?_ h
  intro a b hab
  by_cases hma : matchesVoice t a = true
  · rw [heldDistinct_iff]
    intro ha
    simp [hma] at ha
  · by_cases hmb : matchesVoice t b = true
    · rw [heldDistinct_iff]
      intro _ hb
      simp [hmb] at hb
    · simp only [if_neg hma, if_neg hmb]
      exact hab

lemma markReleased_not_matching_held (t : NoteFields) (l : List Voice) :
    ∀ v ∈ markReleased t l, v.held = true → matchesVoice t v = false := by
  intro v hv
  simp only [markReleased, List.mem_map] at hv
  obtain ⟨v0, _, rfl⟩ := hv
  by_cases hm : matchesVoice t v0 = true
  · simp [hm]
  · simp only [if_neg hm]
    exact fun _ => Bool.eq_false_iff.2 hm

lemma uniqueHeld_noteOn (k n c : Int) (l : List Voice) (h : UniqueHeld l) :
    UniqueHeld (markReleased ⟨k, n, c⟩ l ++
      [{ held := true, note_id := n, channel := c, key := k, phase := 0,
         param_offsets := List.replicate NumParams 0 }]) := by
  rw [UniqueHeld, List.pairwise_append]
  refine ⟨markReleased_unique _ _ h, List.pairwise_singleton _ _, ?_⟩
  intro a ha b hb
  simp only [List.mem_singleton] at hb
  subst hb
  rw [heldDistinct_iff]
  intro hah _ hfields
  obtain ⟨hk, hn, hc⟩ := hfields
  have hnm := markReleased_not_matching_held ⟨k, n, c⟩ l a ha hah
  have hm := matchesVoice_of_eq_fields ⟨k, n, c⟩ a hk hn hc
  rw [hnm] at hm
  exact absurd hm (by simp)

lemma modLoop_mem_fields (t : NoteFields) (pid : Nat) (amt : ℚ) :
    ∀ (l : List Voice), ∀ w ∈ modLoop t pid amt l, ∃ w0, w0 ∈ l ∧
      w.held = w0.held ∧ w.key = w0.key ∧ w.note_id = w0.note_id ∧
      w.channel = w0.channel := by
  intro l
  induction l with
  | nil => intro w hw; simp [modLoop] at hw
  | cons v vs ih =>
    intro w hw
    by_cases hm : matchesVoice t v = true
    · rw [modLoop, if_pos hm] at hw
      rcases List.mem_cons.1 hw with rfl | htail
      · exact ⟨v, by simp, rfl, rfl, rfl, rfl⟩
      · exact ⟨w, List.mem_cons_of_mem _ htail, rfl, rfl, rfl, rfl⟩
    · rw [modLoop, if_neg hm] at hw
      rcases List.mem_cons.1 hw with rfl | htail
      · exact ⟨w, by simp, rfl, rfl, rfl, rfl⟩
      · obtain ⟨w0, h0, hf⟩ := ih w htail
        exact ⟨w0, List.mem_cons_of_mem _ h0, hf⟩

lemma modLoop_unique (t : NoteFields) (pid : Nat) (amt : ℚ) :
    ∀ (l : List Voice), UniqueHeld l → UniqueHeld (modLoop t pid amt l) := by
  intro l
  induction l with
  | nil => intro h; exact h
  | cons v vs ih =>
    intro h
    rw [UniqueHeld, List.pairwise_cons] at h
    obtain ⟨hhead, htail⟩ := h
    by_cases hm : matchesVoice t v = true
    · rw [modLoop, if_pos hm, UniqueHeld, List.pairwise_cons]
      refine ⟨?_, htail⟩
      intro w hw
      have hd := hhead w hw
      rw [heldDistinct_iff] at hd ⊢
      exact hd
    · rw [modLoop, if_neg hm, UniqueHeld, List.pairwise_cons]
      refine ⟨?_, ih htail⟩
      intro w hw
      obtain ⟨w0, h0, hh, hk, hn, hc⟩ := modLoop_mem_fields t pid amt vs w hw
      have hd := hhead w0 h0
      rw [heldDistinct_iff] at hd ⊢
      intro hv hw2 hfields
      obtain ⟨e1, e2, e3⟩ := hfields
      exact hd hv (hh ▸ hw2) ⟨e1.trans hk, e2.trans hn, e3.trans hc⟩

lemma renderVoiceFrame_fields (osc : ℚ → ℚ) (incr : Int → ℚ) (vol : ℚ)
    (v : Voice) :
    ((renderVoiceFrame osc incr vol v).1).held = v.held ∧
    ((renderVoiceFrame osc incr vol v).1).key = v.key ∧
    ((renderVoiceFrame osc incr vol v).1).note_id = v.note_id ∧
    ((renderVoiceFrame osc incr vol v).1).channel = v.channel := by
  by_cases hv : v.held = true <;> simp [renderVoiceFrame, hv]

lemma renderFrame_unique (osc : ℚ → ℚ) (incr : Int → ℚ) (vol : ℚ)
    (l : List Voice) (h : UniqueHeld l) :
    UniqueHeld (renderFrame osc incr vol l).1 := by
  rw [renderFrame_fst]
  refine List.Pairwise.map _ ?_ h
  intro a b hab
  obtain ⟨ha1, ha2, ha3, ha4⟩ := renderVoiceFrame_fields osc incr vol a
  obtain ⟨hb1, hb2, hb3, hb4⟩ := renderVoiceFrame_fields osc incr vol b
  rw [heldDistinct_iff] at hab ⊢
  rw [ha1, ha2, ha3, ha4, hb1, hb2, hb3, hb4]
  exact hab

lemma renderAudio_unique (osc : ℚ → ℚ) (incr : Int → ℚ) :
    ∀ (n : Nat) (st : PluginState), UniqueHeld st.voices →
      UniqueHeld (renderAudio osc incr n st).voices := by
  intro n
  induction n with
  | zero => intro st h; exact h
  | succ n ih =>
    intro st h
    rw [renderAudio]
    exact ih _ (renderFrame_unique _ _ _ _ h)

lemma processEvent_unique (e : ClapEvent) (st : PluginState)
    (h : UniqueHeld st.voices) : UniqueHeld (processEvent e st).voices := by
  cases e with
  | noteOn time k n c => exact uniqueHeld_noteOn k n c st.voices h
  | noteOff time k n c => exact markReleased_unique _ _ h
  | noteChoke time k n c =>
    show UniqueHeld (chokeVoices ⟨k, n, c⟩ st.voices)
    rw [chokeVoices_eq_filter]
    exact List.Pairwise.sublist (List.filter_sublist _) h
  | paramValue _ _ _ => exact h
  | paramMod _ t pid amt => exact modLoop_unique t pid amt st.voices h
  | inert _ => exact h

lemma innerLoop_unique (events : List ClapEvent) (nf curr : Nat) :
    ∀ (idx next : Nat) (st : PluginState), UniqueHeld st.voices →
      UniqueHeld (innerLoop events nf curr idx next st).2.2.1.voices := by
  intro idx next st
  induction idx, next, st using innerLoop.induct events nf curr with
  | case1 idx next st h e het =>
    rw [innerLoop, dif_pos h, if_pos het]
    exact id
  | case2 idx next st h e het hlast =>
    rw [innerLoop, dif_pos h, if_neg het, if_pos hlast]
    exact fun hu => processEvent_unique _ _ hu
  | case3 idx next st h e het st' hlast ih =>
    rw [innerLoop, dif_pos h, if_neg het, if_neg hlast]
    exact fun hu => ih (processEvent_unique _ _ hu)
  | case4 idx next st h =>
    rw [innerLoop, dif_neg h]
    exact id

lemma outerLoop_unique (osc : ℚ → ℚ) (incr : Int → ℚ)
    (events : List ClapEvent) (nf : Nat) :
    ∀ (fuel curr idx next : Nat) (st : PluginState), UniqueHeld st.voices →
      UniqueHeld (outerLoop osc incr events nf fuel curr idx next st).1.voices := by
  intro fuel
  induction fuel with
  | zero => intro curr idx next st h; exact h
  | succ fuel ih =>
    intro curr idx next st h
    rw [outerLoop]
    by_cases hc : curr < nf
    · rw [if_pos hc]
      exact ih _ _ _ _
        (renderAudio_unique osc incr _ _ (innerLoop_unique events nf curr idx next st h))
    · rw [if_neg hc]
      exact h

end Lemmas

/-- C7: in MyPlugin::RenderAudio every held voice's phase is advanced by
the per-key frequency increment and wrapped by subtracting the floor, so
after every render step every held voice's phase lies in [0, 1); and the
pitch exponent (key - 57)/12 equals (key - 69 + 12)/12, i.e. the mapping
anchors key 57 to 440 Hz, one octave-offset form of A4 = 440 Hz at
key 69. -/
theorem renderAudio_phase_invariant :
    (∀ key : Int, freqExponent key = (((key : ℚ) - 69) + 12) / 12) ∧
    (∀ (osc : ℚ → ℚ) (incr : Int → ℚ) (n : Nat) (st : PluginState),
      1 ≤ n → ∀ v ∈ (renderAudio osc incr n st).voices, v.held = true →
        0 ≤ v.phase ∧ v.phase < 1) := by
  constructor
  · intro k
    unfold freqExponent
    ring
  · intro osc incr n st h1 v hv hh
    obtain ⟨m, rfl⟩ : ∃ m, n = m + 1 := ⟨n - 1, by omega⟩
    exact renderAudio_held_phase osc incr m st v hv hh

/-- Witness for C7: a voice with phase 3/2 and zero increment is wrapped
to 1/2 by one render step. -/
theorem renderAudio_phase_invariant_witness :
    freqExponent 57 = (((57 : ℚ) - 69) + 12) / 12 ∧
    (1 ≤ 1 ∧
      voiceW7res ∈ (renderAudio (fun _ => 1) (fun _ => 0) 1 stW7).voices ∧
      (0 ≤ voiceW7res.phase ∧ voiceW7res.phase < 1)) := by
  have hwrap : advancePhase (3/2) 0 = 1/2 := by
    rw [advancePhase_eq_fract]
    norm_num [Int.fract]
  have hmem : voiceW7res ∈ (renderAudio (fun _ => 1) (fun _ => 0) 1 stW7).voices := by
    simp [renderAudio, renderFrame, renderVoiceFrame, hwrap, stW7, voiceW7,
      voiceW7res]
  refine ⟨renderAudio_phase_invariant.1 57, le_refl 1, hmem, ?_⟩
  exact renderAudio_phase_invariant.2 (fun _ => 1) (fun _ => 0) 1 stW7
    (le_refl 1) voiceW7res hmem (by rfl)

/-- C10: processing a CLAP_EVENT_NOTE_ON first runs the wildcard
release-marking loop over the existing voices (treating the note-on as a
release for every matching voice, and a voice with the exact same
(key, note_id, channel) triple always matches) and only then appends the
new voice with held = true and phase 0; consequently the registry
invariant that at most one held voice carries any given exact triple is
preserved by every event and by every whole Process call, end-of-block
cleanup included. -/
theorem noteOn_releases_then_appends :
    (∀ (time : Nat) (k n c : Int) (st : PluginState),
      (processEvent (ClapEvent.noteOn time k n c) st).voices =
        st.voices.map
          (fun v => if matchesVoice ⟨k, n, c⟩ v then { v with held := false }
                    else v) ++
          [{ held := true, note_id := n, channel := c, key := k, phase := 0,
             param_offsets := List.replicate NumParams 0 }]) ∧
    (∀ (osc : ℚ → ℚ) (incr : Int → ℚ) (st : PluginState) (N : Nat)
        (evs : List ClapEvent),
      UniqueHeld st.voices →
      UniqueHeld (processCall osc incr st N evs).1.voices) := by
  constructor
  · intro time k n c st
    rfl
  · intro osc incr st N evs h
    have h1 : UniqueHeld (outerLoop osc incr evs N (N + evs.length + 1) 0 0
        (if evs.length = 0 then N else 0)
        (syncMainParamsToAudio st).1).1.voices :=
      outerLoop_unique osc incr evs N _ _ _ _ _ h
    exact List.Pairwise.sublist (clearStep_voices_sublist _ 0 []) h1

/-- Witness for C10: two note-ons with the same identity leave a single
held voice after the call's cleanup, starting from an empty registry. -/
theorem noteOn_releases_then_appends_witness :
    ((processEvent (ClapEvent.noteOn 0 60 5 0) stC4).voices =
      stC4.voices.map
        (fun v => if matchesVoice ⟨60, 5, 0⟩ v then { v with held := false }
                  else v) ++
        [{ held := true, note_id := 5, channel := 0, key := 60, phase := 0,
           param_offsets := List.replicate NumParams 0 }]) ∧
    UniqueHeld stC4.voices ∧
    UniqueHeld (processCall (fun _ => 1) (fun _ => 0) stC4 8
      [ClapEvent.noteOn 3 60 5 0, ClapEvent.noteOn 5 60 5 0]).1.voices := by
  refine ⟨noteOn_releases_then_appends.1 0 60 5 0 stC4, ?_, ?_⟩
  · exact List.Pairwise.nil
  · exact noteOn_releases_then_appends.2 (fun _ => 1) (fun _ => 0) stC4 8
      [ClapEvent.noteOn 3 60 5 0, ClapEvent.noteOn 5 60 5 0]
      List.Pairwise.nil

/-- C1 (code bug in the source): the end-of-block cleanup loop of
MyPlugin::Process erases a not-held voice at index i and then still runs
the loop increment, skipping the voice shifted into slot i.  With two
consecutive not-held voices, the second one (voxB, held = false) is left
in the voice vector and no CLAP_EVENT_NOTE_END is emitted for it in this
processing call, contradicting the claim that every not-held voice is
removed with exactly one notification. -/
theorem clearVoices_skips_after_erase :
    voxB.held = false ∧
    clearVoices [voxA, voxB] = ([voxB], [OutEvent.noteEnd 60 1 0]) := by
  constructor
  · rfl
  · simp [clearVoices, clearStep, voxA, voxB]

/-- C2 (code bug in the source): after the underrun branch of the
resampling tail of MyPlugin::Process re-renders the buffers, the final
leftover check still compares the converter's consumed count against
input_len, the buffer length captured before the re-render.  With one
buffered sample, an output request of 10, a first pass consuming 1 and
producing 2, a re-render of 4 frames and a second pass consuming 3 and
producing the remaining 8, the code clears both buffers even though one
re-rendered sample was never consumed; both converter passes satisfy the
documented three-outcome contract, so the scenario is reachable. -/
theorem resamplePublish_drops_leftover :
    resamplePublish [5] [5] 10 ⟨1, 2⟩ (fun _ => [1, 2, 3, 4]) ⟨3, 8⟩ = ([], []) ∧
    (([1, 2, 3, 4] : List ℚ).drop 3 = [4] ∧ (([4] : List ℚ) ≠ [])) ∧
    ConvOk 1 10 ⟨1, 2⟩ ∧ ConvOk 4 8 ⟨3, 8⟩ := by
  decide

/-- C3 counterexample: a zero-length stream makes MyPlugin::LoadState
return failure, yet every control-side changed flag is set afterwards,
because the marking loop runs unconditionally; the claim that a failed
load leaves every changed flag unset is false. -/
theorem loadState_failure_still_marks_changed :
    (loadState 0 [] stC3).2 = false ∧
    (loadState 0 [] stC3).1.main_params_changed = [true] := by
  decide

/-- C3 as amended: LoadState succeeds exactly when the stream delivers
at least sizeof(float)*NumParams = 4*NumParams bytes (a single read call
caps at the requested byte count, so longer streams also succeed), and
in every case - success or failure - it marks every parameter as
control-changed. -/
theorem loadState_spec :
    ∀ (streamBytes : Nat) (streamVals : List ℚ) (st : PluginState),
      st.main_params_changed.length = NumParams →
      (((loadState streamBytes streamVals st).2 = true) ↔
        4 * NumParams ≤ streamBytes) ∧
      (loadState streamBytes streamVals st).1.main_params_changed =
        List.replicate NumParams true := by
  intro sb sv st h
  obtain ⟨b, hb⟩ := List.length_eq_one.1 h
  constructor
  · simp only [loadState, beq_iff_eq, NumParams]
    omega
  · simp only [loadState, NumParams, hb]
    cases b <;> decide

/-- Witness for C3 as amended: a four-byte stream loads successfully and
marks the parameter changed. -/
theorem loadState_spec_witness :
    (stC3.main_params_changed.length = NumParams) ∧
    (((loadState 4 [1] stC3).2 = true) ↔ 4 * NumParams ≤ 4) ∧
    (loadState 4 [1] stC3).1.main_params_changed =
      List.replicate NumParams true :=
  ⟨by decide, (loadState_spec 4 [1] stC3 (by decide)).1,
    (loadState_spec 4 [1] stC3 (by decide)).2⟩

/-- C4: SyncMainParamsToAudio copies, for every parameter whose
control-side changed flag is set, the control-side value into the
render-side array, clears the flag, and pushes exactly one parameter
echo carrying the adopted value, leaving unchanged parameters untouched
with no event; and in Process the synchronisation runs exactly once,
before any rendering: all echo events of a call come from that single
sync run and precede every other output event, and (absent incoming
CLAP_EVENT_PARAM_VALUE events, which legitimately rewrite the render
side mid-block) the render-side array used and left by the whole call is
exactly the synced one. -/
theorem syncMainParams_spec :
    ∀ (st : PluginState),
      st.main_params_changed.length = st.main_params.length →
      st.audio_params.length = st.main_params.length →
      ((syncMainParamsToAudio st).1.main_params = st.main_params ∧
       (∀ j, j < st.main_params.length →
         (st.main_params_changed.getD j false = true →
            (syncMainParamsToAudio st).1.audio_params.getD j 0 =
              st.main_params.getD j 0 ∧
            (syncMainParamsToAudio st).1.main_params_changed.getD j false =
              false ∧
            (syncMainParamsToAudio st).2.filter
                (fun e => echoPid e == some j) =
              [OutEvent.paramEcho j (st.main_params.getD j 0)]) ∧
         (st.main_params_changed.getD j false = false →
            (syncMainParamsToAudio st).1.audio_params.getD j 0 =
              st.audio_params.getD j 0 ∧
            (syncMainParamsToAudio st).1.main_params_changed.getD j false =
              false ∧
            (syncMainParamsToAudio st).2.filter
                (fun e => echoPid e == some j) = []))) ∧
      (∀ (osc : ℚ → ℚ) (incr : Int → ℚ) (N : Nat) (evs : List ClapEvent),
        ∃ ends, (processCall osc incr st N evs).2.1 =
            (syncMainParamsToAudio st).2 ++ ends ∧
          ∀ e ∈ ends, echoPid e = none) ∧
      (∀ (osc : ℚ → ℚ) (incr : Int → ℚ) (N : Nat) (evs : List ClapEvent),
        (∀ e ∈ evs, ∀ t pid v, e ≠ ClapEvent.paramValue t pid v) →
        (processCall osc incr st N evs).1.audio_params =
          (syncMainParamsToAudio st).1.audio_params) := by
  intro st h1 h2
  refine ⟨⟨syncLoop_fst _ _ _ _, ?_⟩, ?_, ?_⟩
  · intro j hj
    have H := syncLoop_spec_at st.main_params st.main_params_changed
      st.audio_params 0 j hj h1 h2
    simpa [syncMainParamsToAudio, Nat.zero_add] using H
  · intro osc incr N evs
    refine ⟨(clearVoices (outerLoop osc incr evs N (N + evs.length + 1) 0 0
      (if evs.length = 0 then N else 0)
      (syncMainParamsToAudio st).1).1.voices).2, rfl, ?_⟩
    intro e he
    obtain ⟨v, _, _, rfl⟩ := clearVoices_events_shape _ e he
    rfl
  · intro osc incr N evs hev
    exact outerLoop_audio_params osc incr evs N hev _ _ _ _ _

/-- Witness for C4: a state with the single parameter marked changed is
synced: the value is adopted, the flag cleared, one echo pushed, and a
no-event process call leaves exactly the synced render-side values. -/
theorem syncMainParams_spec_witness :
    (stC4.main_params_changed.length = stC4.main_params.length) ∧
    ((syncMainParamsToAudio stC4).1.main_params = stC4.main_params) ∧
    ((syncMainParamsToAudio stC4).2.filter (fun e => echoPid e == some 0) =
      [OutEvent.paramEcho 0 (stC4.main_params.getD 0 0)]) ∧
    ((processCall (fun _ => 1) (fun _ => 0) stC4 2 []).1.audio_params =
      (syncMainParamsToAudio stC4).1.audio_params) := by
  refine ⟨by decide, (syncMainParams_spec stC4 (by decide) (by decide)).1.1,
    ?_, ?_⟩
  · exact (((syncMainParams_spec stC4 (by decide) (by decide)).1.2 0
      (by decide)).1 (by decide)).2.2
  · exact (syncMainParams_spec stC4 (by decide) (by decide)).2.2
      (fun _ => 1) (fun _ => 0) 2 [] (by intro e he; simp at he)

/-- C5: the block loop of MyPlugin::Process partitions the N frames into
contiguous, monotonically increasing sub-spans: with no input events a
single sub-span [0, N) is rendered; with two events at timestamps
0 < t1 < t2 < N exactly the three sub-spans [0, t1), [t1, t2), [t2, N)
are rendered, each event being applied at the start of the sub-span that
begins at its timestamp, before any further rendering. -/
theorem processCall_subspans :
    ∀ (osc : ℚ → ℚ) (incr : Int → ℚ) (st : PluginState) (N : Nat),
      (0 < N → (processCall osc incr st N []).2.2 = [TraceItem.render 0 N]) ∧
      (∀ (e1 e2 : ClapEvent),
        0 < e1.time → e1.time < e2.time → e2.time < N →
        (processCall osc incr st N [e1, e2]).2.2 =
          [TraceItem.render 0 e1.time, TraceItem.apply e1,
           TraceItem.render e1.time e2.time, TraceItem.apply e2,
           TraceItem.render e2.time N]) := by
  intro osc incr st N
  constructor
  · intro hN
    simp only [processCall, List.length_nil, eq_self_iff_true, if_true,
      Nat.add_zero]
    rw [outerLoop, if_pos hN]
    rw [innerLoop_stop _ _ _ _ _ _ (by simp)]
    simp only []
    rw [outerLoop_stop _ _ _ _ _ _ _ _ _ (by omega)]
    simp
  · intro e1 e2 ht1 h12 h2N
    have hN : 0 < N := by omega
    simp only [processCall, List.length_cons, List.length_nil]
    rw [if_neg (by omega)]
    rw [show N + (0 + 1 + 1) + 1 = (N + 2) + 1 from by omega]
    rw [outerLoop, if_pos hN]
    rw [innerLoop, dif_pos ⟨by simp, rfl⟩]
    simp only [List.get_eq_getElem, List.getElem_cons_zero]
    rw [if_pos (by omega : e1.time ≠ 0)]
    simp only [List.get_eq_getElem, List.getElem_cons_zero]
    rw [show N + 2 = (N + 1) + 1 from rfl]
    rw [outerLoop, if_pos (by omega : e1.time < N)]
    rw [innerLoop, dif_pos ⟨by simp, rfl⟩]
    simp only [List.get_eq_getElem, List.getElem_cons_zero]
    rw [if_neg (by simp : ¬ e1.time ≠ e1.time)]
    rw [if_neg (by simp : ¬ (0 + 1 = [e1, e2].length))]
    rw [innerLoop, dif_pos ⟨by simp, rfl⟩]
    simp only [List.get_eq_getElem, List.getElem_cons_succ, List.getElem_cons_zero]
    rw [if_pos (by omega : e2.time ≠ e1.time)]
    simp only [List.get_eq_getElem, List.getElem_cons_succ, List.getElem_cons_zero]
    rw [outerLoop, if_pos (by omega : e2.time < N)]
    rw [innerLoop, dif_pos ⟨by simp, rfl⟩]
    simp only [List.get_eq_getElem, List.getElem_cons_succ, List.getElem_cons_zero]
    rw [if_neg (by simp : ¬ e2.time ≠ e2.time)]
    rw [if_pos (by simp : 0 + 1 + 1 = [e1, e2].length)]
    simp only [List.get_eq_getElem, List.getElem_cons_succ, List.getElem_cons_zero]
    rw [outerLoop_stop _ _ _ _ _ _ _ _ _ (by omega)]
    simp

/-- Witness for C5: a block of 8 frames with no events is one sub-span,
and with a note-on at frame 3 and a note-off at frame 6 it is three
sub-spans with the events applied at their timestamps. -/
theorem processCall_subspans_witness :
    (0 < 8 ∧
      (processCall (fun _ => 1) (fun _ => 0) stC4 8 []).2.2 =
        [TraceItem.render 0 8]) ∧
    (0 < (ClapEvent.noteOn 3 60 5 0).time ∧
      (ClapEvent.noteOn 3 60 5 0).time < (ClapEvent.noteOff 6 60 5 0).time ∧
      (ClapEvent.noteOff 6 60 5 0).time < 8 ∧
      (processCall (fun _ => 1) (fun _ => 0) stC4 8
          [ClapEvent.noteOn 3 60 5 0, ClapEvent.noteOff 6 60 5 0]).2.2 =
        [TraceItem.render 0 (ClapEvent.noteOn 3 60 5 0).time,
         TraceItem.apply (ClapEvent.noteOn 3 60 5 0),
         TraceItem.render (ClapEvent.noteOn 3 60 5 0).time
           (ClapEvent.noteOff 6 60 5 0).time,
         TraceItem.apply (ClapEvent.noteOff 6 60 5 0),
         TraceItem.render (ClapEvent.noteOff 6 60 5 0).time 8]) := by
  refine ⟨⟨by decide, ?_⟩, by decide, by decide, by decide, ?_⟩
  · exact (processCall_subspans (fun _ => 1) (fun _ => 0) stC4 8).1 (by decide)
  · exact (processCall_subspans (fun _ => 1) (fun _ => 0) stC4 8).2
      (ClapEvent.noteOn 3 60 5 0) (ClapEvent.noteOff 6 60 5 0)
      (by decide) (by decide) (by decide)

/-- C6: MyPlugin::GetParamValue yields no value for an out-of-range
index; for a valid index it returns the control-side value when the
control-side changed flag is pending and the render-side value
otherwise, reading the state without modifying it. -/
theorem getParamValue_spec :
    ∀ (st : PluginState) (id : Nat),
      (id < NumParams →
        getParamValue st id =
          some (if st.main_params_changed.getD id false then
                  st.main_params.getD id 0
                else
                  st.audio_params.getD id 0)) ∧
      (NumParams ≤ id → getParamValue st id = none) := by
  intro st id
  constructor
  · intro h
    rw [getParamValue, if_neg (by omega)]
  · intro h
    rw [getParamValue, if_pos (by omega)]

/-- Witness for C6: both branches of getParamValue at a concrete
state. -/
theorem getParamValue_spec_witness :
    getParamValue
        { voices := [], audio_params := [3/10], audio_params_changed := [false],
          main_params := [9/10], main_params_changed := [true],
          render_buf0 := [], render_buf1 := [] } 0 =
      some (if ([true] : List Bool).getD 0 false then
              ([9/10] : List ℚ).getD 0 0
            else
              ([3/10] : List ℚ).getD 0 0) ∧
    getParamValue
        { voices := [], audio_params := [3/10], audio_params_changed := [false],
          main_params := [9/10], main_params_changed := [true],
          render_buf0 := [], render_buf1 := [] } 5 = none := by
  exact ⟨(getParamValue_spec _ 0).1 (by decide), (getParamValue_spec _ 5).2 (by decide)⟩

/-- C8: the CLAP_EVENT_NOTE_CHOKE loop erases every voice matching the
event's wildcard rule immediately (the --i after erase re-examines the
shifted slot, so no match is skipped): the surviving vector is exactly
the non-matching voices.  Consequently the end-of-block cleanup never
emits a CLAP_EVENT_NOTE_END whose identity matches the choke event - the
choked voices are gone before the cleanup runs, in this call and every
later one. -/
theorem chokeVoices_removed_never_ended :
    ∀ (t : NoteFields) (l : List Voice),
      chokeVoices t l = l.filter (fun v => !matchesVoice t v) ∧
      ∀ e ∈ (clearVoices (chokeVoices t l)).2, matchesEnd t e = false := by
  intro t l
  refine ⟨chokeVoices_eq_filter t l, ?_⟩
  intro e he
  obtain ⟨v, hv, _, rfl⟩ := clearVoices_events_shape _ e he
  rw [chokeVoices_eq_filter] at hv
  have hnm := (List.mem_filter.1 hv).2
  have hme : matchesEnd t (OutEvent.noteEnd v.key v.note_id v.channel) =
      matchesVoice t v := rfl
  rw [hme]
  simpa using hnm

/-- Witness for C8: choking key 60 removes voxA; the cleanup then ends
only voxB (key 61), whose note-end event does not match the choke. -/
theorem chokeVoices_removed_never_ended_witness :
    chokeVoices ⟨60, -1, -1⟩ [voxA, voxB] =
      [voxA, voxB].filter (fun v => !matchesVoice ⟨60, -1, -1⟩ v) ∧
    matchesEnd ⟨60, -1, -1⟩ (OutEvent.noteEnd 61 2 0) = false := by
  have hmem : OutEvent.noteEnd 61 2 0 ∈
      (clearVoices (chokeVoices ⟨60, -1, -1⟩ [voxA, voxB])).2 := by
    rw [chokeVoices_eq_filter]
    simp [clearVoices, clearStep, voxA, voxB, matchesVoice]
  exact ⟨(chokeVoices_removed_never_ended ⟨60, -1, -1⟩ [voxA, voxB]).1,
    (chokeVoices_removed_never_ended ⟨60, -1, -1⟩ [voxA, voxB]).2 _ hmem⟩

/-- C9: the CLAP_EVENT_PARAM_MOD loop writes the modulation offset into
the first matching voice only and stops; earlier (non-matching) and
later voices are returned unchanged, and when no voice matches the voice
vector is unchanged. -/
theorem modLoop_first_match :
    (∀ (t : NoteFields) (pid : Nat) (amount : ℚ) (l : List Voice),
        (∀ u ∈ l, matchesVoice t u = false) → modLoop t pid amount l = l) ∧
    (∀ (t : NoteFields) (pid : Nat) (amount : ℚ) (l1 : List Voice) (v : Voice)
        (l2 : List Voice),
        (∀ u ∈ l1, matchesVoice t u = false) → matchesVoice t v = true →
        modLoop t pid amount (l1 ++ v :: l2) =
          l1 ++ { v with param_offsets := v.param_offsets.set pid amount } :: l2) := by
  constructor
  · intro t pid amount l h
    induction l with
    | nil => rfl
    | cons u us ih =>
      rw [modLoop, if_neg (by simp [h u (by simp)])]
      rw [ih (fun w hw => h w (by simp [hw]))]
  · intro t pid amount l1 v l2 h1 hv
    induction l1 with
    | nil => simp [modLoop, hv]
    | cons u us ih =>
      rw [List.cons_append, modLoop, if_neg (by simp [h1 u (by simp)])]
      rw [ih (fun w hw => h1 w (by simp [hw]))]
      rfl

/-- Witness for C9: a modulation event targeting two matching voices
updates only the first. -/
theorem modLoop_first_match_witness :
    modLoop ⟨60, -1, -1⟩ 0 (1/4)
        [{ held := true, note_id := 1, channel := 0, key := 59, phase := 0,
           param_offsets := [0] },
         { held := true, note_id := 2, channel := 0, key := 60, phase := 0,
           param_offsets := [0] },
         { held := true, note_id := 3, channel := 0, key := 60, phase := 0,
           param_offsets := [0] }] =
      [{ held := true, note_id := 1, channel := 0, key := 59, phase := 0,
         param_offsets := [0] },
       { held := true, note_id := 2, channel := 0, key := 60, phase := 0,
         param_offsets := [1/4] },
       { held := true, note_id := 3, channel := 0, key := 60, phase := 0,
         param_offsets := [0] }] ∧
    modLoop ⟨72, -1, -1⟩ 0 (1/4)
        [{ held := true, note_id := 1, channel := 0, key := 59, phase := 0,
           param_offsets := [0] }] =
      [{ held := true, note_id := 1, channel := 0, key := 59, phase := 0,
         param_offsets := [0] }] := by
  constructor
  · have h := modLoop_first_match.2 ⟨60, -1, -1⟩ 0 (1/4)
      [{ held := true, note_id := 1, channel := 0, key := 59, phase := 0,
         param_offsets := [0] }]
      { held := true, note_id := 2, channel := 0, key := 60, phase := 0,
        param_offsets := [0] }
      [{ held := true, note_id := 3, channel := 0, key := 60, phase := 0,
         param_offsets := [0] }]
      (by decide) (by decide)
    simpa using h
  · exact modLoop_first_match.1 ⟨72, -1, -1⟩ 0 (1/4) _ (by decide)

end ClapTut
